import Mathlib

/-!
Verification of the truth-scaffold ingest pipeline.

The development shallowly embeds the ingestion scripts:
  * scripts/ingest_csv.py   (derivation, pmid cleaning, schema reconciliation,
                             staging, keyed upsert; the core pipeline)
  * app/scripts/ingest_csv.py (append-style loader with decade derivation and
                             full-text-vector recomputation)
  * scripts/convert_csv_bools.py (CSV boolean literal rewriter)

Cells are modelled as `Option String` (none = a missing/NaN cell); pandas
dataframes as a column list plus rows of named raw cells; the destination
table as an introspected schema (column name and declared type, as strings)
plus rows of named typed values.  Machine floats are modelled by `Rat`
restricted to plain decimal literals with optional sign, fraction and
exponent; the `inf`/`nan`/underscore literal forms, double rounding at
extreme precision and overflow past 1e308 are outside the modelled grammar
(every claim under proof stays far inside it).
-/

/-- A normalized scalar cell value in the destination table. -/
inductive Val where
  | null
  | i (n : Int)
  | r (q : Rat)
  | s (t : String)
  | b (x : Bool)
deriving DecidableEq, Repr

/-- A destination (or staged) row: named typed values in column order. -/
abbrev Row := List (String × Val)

/-- A raw dataframe row: named raw cells; `none` models a NaN/missing cell. -/
abbrev RawRow := List (String × Option String)

/-- First value bound to column `c` in a raw row; a column absent from the
row reads as a missing cell, like `df.get` / NaN. -/
def rawGet (row : RawRow) (c : String) : Option String :=
  match row.find? (fun p => p.1 == c) with
  | some p => p.2
  | none => none

/-- First value bound to column `c` in a typed row; absent columns read as
SQL NULL. -/
def rowGet (row : Row) (c : String) : Val :=
  match row.find? (fun p => p.1 == c) with
  | some p => p.2
  | none => Val.null

/-- Python `str.strip` whitespace set. -/
def isPyWS (c : Char) : Bool :=
  c = ' ' || c = '\t' || c = '\n' || c = '\r' || c = '\x0b' || c = '\x0c'

/-- Python `str.strip()` on the character list. -/
def stripChars (l : List Char) : List Char :=
  ((l.dropWhile isPyWS).reverse.dropWhile isPyWS).reverse

/-- Python `str.strip()`. -/
def pyStrip (s : String) : String := String.mk (stripChars s.toList)

/-- Decimal digit run to a natural number. -/
def digitsToNat (ds : List Char) : Nat :=
  ds.foldl (fun a c => a * 10 + (c.toNat - 48)) 0

/-- An optionally signed nonempty digit run, as in a float exponent. -/
def parseSignedDigits : List Char → Option Int
  | '+' :: ds => if ds ≠ [] ∧ ds.all Char.isDigit then some (digitsToNat ds) else none
  | '-' :: ds => if ds ≠ [] ∧ ds.all Char.isDigit then some (-(digitsToNat ds : Int)) else none
  | ds => if ds ≠ [] ∧ ds.all Char.isDigit then some (digitsToNat ds) else none

/-- The exponent tail of a float literal; empty input means exponent 0. -/
def parseExpTail : List Char → Option Int
  | [] => some 0
  | 'e' :: rest => parseSignedDigits rest
  | 'E' :: rest => parseSignedDigits rest
  | _ => none

/-- Fractional digits after an optional dot, returning them and the rest. -/
def parseFracTail (l : List Char) : List Char × List Char :=
  match l with
  | '.' :: t => (t.takeWhile Char.isDigit, t.drop (t.takeWhile Char.isDigit).length)
  | _ => ([], l)

/-- Powers of ten. -/
def pow10 : Nat → Nat
  | 0 => 1
  | n + 1 => 10 * pow10 n

/-- `m * 10 ^ k` over the rationals for an integer exponent. -/
def ratScale (m : Int) (k : Int) : Rat :=
  if 0 ≤ k then mkRat (m * (pow10 k.toNat : Int)) 1
  else mkRat m (pow10 (-k).toNat)

/-- Python `float(s)` on a stripped character list, for plain decimal
literals `sign? (digits ('.' digits?)? | '.' digits) ([eE] sign? digits)?`
evaluated exactly over `Rat` (see the module comment for the excluded
literal forms, none of which the claims exercise). -/
def parseDecCore (l : List Char) : Option Rat :=
  let negAndRest : Bool × List Char :=
    match l with
    | '+' :: t => (false, t)
    | '-' :: t => (true, t)
    | _ => (false, l)
  let l1 := negAndRest.2
  let ip := l1.takeWhile Char.isDigit
  let l2 := l1.drop ip.length
  let fr := parseFracTail l2
  let fp := fr.1
  if ip = [] ∧ fp = [] then none
  else
    match parseExpTail fr.2 with
    | none => none
    | some e =>
      let m : Int := (digitsToNat (ip ++ fp) : Int)
      let m := if negAndRest.1 then -m else m
      some (ratScale m (e - (fp.length : Int)))

/-- Python `float(s)` (whitespace around the literal is ignored). -/
def pyFloat (s : String) : Option Rat := parseDecCore (stripChars s.toList)

/-- Python `int(q)`: truncation toward zero. -/
def ratTrunc (q : Rat) : Int := q.num.tdiv (q.den : Int)

/-- Python `int(float(s))`, `none` when either conversion raises. -/
def pyIntOfFloat (s : String) : Option Int := (pyFloat s).map ratTrunc

/-- `pd.to_numeric(cell, errors="coerce")` on a raw cell: numeric value or
NaN (`none`). -/
def pyToNumeric (cell : Option String) : Option Rat := cell.bind pyFloat

/-- `scripts/ingest_csv.py` line 7: the truthy token set. -/
def BOOL_TRUE : List String := ["1", "true", "t", "y", "yes", "on", "True", "TRUE"]

/-- `scripts/ingest_csv.py` line 8: the falsy token set. -/
def BOOL_FALSE : List String := ["0", "false", "f", "n", "no", "off", "False", "FALSE"]

/-- `scripts/ingest_csv.py` lines 10-19: `to_bool`.  The input is the raw
cell (`none` = NaN, so `pd.isna` is the `none` case); `str(x)` on a string
cell is the identity. -/
def to_bool (x : Option String) : Option Bool :=
  match x with
  | none => none
  | some x0 =>
    let s := pyStrip x0
    if s = "" then none
    else if s ∈ BOOL_TRUE then some true
    else if s ∈ BOOL_FALSE then some false
    else
      match pyIntOfFloat s with
      | some n => some (decide (n ≠ 0))
      | none => none

/-- Whether `needle` is a leading segment of `hay`. -/
def leadMatch : List Char → List Char → Bool
  | [], _ => true
  | _ :: _, [] => false
  | a :: as, b :: bs => a = b && leadMatch as bs

/-- Whether `needle` occurs somewhere inside `hay`. -/
def occursIn (needle : List Char) : List Char → Bool
  | [] => leadMatch needle []
  | c :: rest => leadMatch needle (c :: rest) || occursIn needle rest

/-- Python `needle in hay` substring test. -/
def containsSub (hay needle : String) : Bool := occursIn needle.toList hay.toList

/-- A regex word character (`\w` over the ASCII texts in play). -/
def isWordChar (c : Char) : Bool := c.isAlphanum || c = '_'

/-- Whether position start satisfies `\b` given the preceding character. -/
def boundaryBefore : Option Char → Bool
  | none => true
  | some c => !isWordChar c

/-- Whether `needle` sits at the head of `rest` with a `\b` right after it. -/
def wordAt (needle rest : List Char) : Bool :=
  leadMatch needle rest &&
    (match rest.drop needle.length with
     | [] => true
     | c :: _ => !isWordChar c)

/-- Scan for a `\b needle \b` occurrence, tracking the previous character. -/
def wordOccursAux (needle : List Char) : Option Char → List Char → Bool
  | prev, [] => boundaryBefore prev && wordAt needle []
  | prev, c :: rest =>
    (boundaryBefore prev && wordAt needle (c :: rest)) || wordOccursAux needle (some c) rest

/-- Python `re.search` of an alternation of word-bounded literal keywords,
as in `str.contains(r"\b(kw1|kw2|...)\b", regex=True)`. -/
def containsWordAny (hay : String) (kws : List String) : Bool :=
  kws.any (fun kw => wordOccursAux kw.toList none hay.toList)

/-- Python `x or ""` followed by f-string interpolation, on a raw cell: a
missing cell is `float("nan")`, which is truthy and formats as `nan`; an
empty string is replaced by the (equal) empty string. -/
def pyOrEmpty (c : Option String) : String :=
  match c with
  | none => "nan"
  | some t => t

/-- `scripts/ingest_csv.py` lines 21-31: `infer_study_type`. -/
def infer_study_type (title abstract : Option String) : String :=
  let s := String.toLower (pyOrEmpty title ++ " " ++ pyOrEmpty abstract)
  if containsSub s "meta-analysis" || containsSub s "systematic review" then "meta-analysis"
  else if containsSub s "randomized" || containsSub s "randomised" || containsSub s " rct " then "rct"
  else if containsSub s "replication" || containsSub s "reproduc" then "replication"
  else if containsSub s "case report" then "case-report"
  else if containsSub s "cross-sectional" then "observational"
  else if containsSub s "cohort" || containsSub s "prospective" || containsSub s "retrospective" then "observational"
  else if containsSub s "pilot" || containsSub s "feasibility" then "pilot"
  else if containsSub s "review" then "review"
  else "other"

/-- `scripts/ingest_csv.py` lines 35-38: positive-outcome keywords. -/
def posKws : List String :=
  ["significant improvement", "improved", "improvement", "reduction in symptoms",
   "reduced symptoms", "benefit", "effective", "efficacious"]

/-- `scripts/ingest_csv.py` lines 39-42: negative-outcome keywords. -/
def negKws : List String :=
  ["no significant difference", "no difference", "ns difference", "worsened",
   "worsening", "increased symptoms", "adverse", "ineffective", "not effective"]

/-- `scripts/ingest_csv.py` lines 33-46: `infer_outcome_sign` (its argument
is always a real string in the pipeline, built by `fillna("")`). -/
def infer_outcome_sign (txt : String) : String :=
  let s := txt.toLower
  let pos := posKws.any (fun k => containsSub s k)
  let neg := negKws.any (fun k => containsSub s k)
  if pos && !neg then "positive"
  else if neg && !pos then "negative"
  else if containsSub s "no significant" || containsSub s "no difference" || containsSub s "ns " then "neutral"
  else "unclear"

/-- A pandas DataFrame: its column names and its rows of raw cells. -/
structure Frame where
  cols : List String
  rows : List RawRow
deriving DecidableEq, Repr

/-- `df[name] = rows.map value`: append a derived column. -/
def addCol (f : Frame) (name : String) (value : RawRow → Option String) : Frame :=
  { cols := f.cols ++ [name],
    rows := f.rows.map (fun r => r ++ [(name, value r)]) }

/-- `df[name] = df[name].map value`: rewrite an existing column in place. -/
def setCol (f : Frame) (name : String) (value : Option String → Option String) : Frame :=
  { cols := f.cols,
    rows := f.rows.map (fun r => r.map (fun p => if p.1 = name then (p.1, value p.2) else p)) }

/-- `df.get("title").fillna("") + " " + df.get("abstract").fillna("")`. -/
def combinedText (r : RawRow) : String :=
  (rawGet r "title").getD "" ++ " " ++ (rawGet r "abstract").getD ""

/-- `pd.to_numeric(cell, errors="coerce").fillna(0)` compared against zero
(`> 0`); positivity of a normalized rational is positivity of its
numerator. -/
def numPos (cell : Option String) : Bool :=
  match pyToNumeric cell with
  | some q => 0 < q.num
  | none => false

/-- Encoding of a derived Python `bool` cell by its `str()` image, which is
what every later consumer (`to_bool`, CSV staging) observes. -/
def encB (x : Bool) : Option String := some (if x then "True" else "False")

/-- `scripts/ingest_csv.py` line 88: demographic keywords. -/
def demoKws : List String := ["sex", "gender", "male", "female", "race", "ethnic", "ethnicity"]

/-- `scripts/ingest_csv.py` line 89: outcome keywords for `is_compliant`. -/
def outKwsA : List String := ["outcome", "effect", "response", "score", "change", "improvement", "adverse"]

/-- `scripts/ingest_csv.py` line 103: outcome keywords for `outcome_present`. -/
def outKwsB : List String := ["outcome", "effect", "response", "score", "change", "difference", "improv", "worsen", "adverse"]

/-- Line 78-79: derive `study_type` when absent; `df.get` of a wholly
missing `title`/`abstract` column is `None` and `zip(None, ...)` raises,
modelled by `none`. -/
def deriveStudyType (f : Frame) : Option Frame :=
  if "study_type" ∈ f.cols then some f
  else if "title" ∈ f.cols ∧ "abstract" ∈ f.cols then
    some (addCol f "study_type" (fun r => some (infer_study_type (rawGet r "title") (rawGet r "abstract"))))
  else none

/-- Lines 81-90: derive `is_compliant` when absent. -/
def deriveIsCompliant (f : Frame) : Option Frame :=
  if "is_compliant" ∈ f.cols then some f
  else if "demo_present" ∈ f.cols ∧ "outcome_present" ∈ f.cols then
    some (addCol f "is_compliant" (fun r =>
      encB (numPos (rawGet r "demo_present") && numPos (rawGet r "outcome_present"))))
  else if "title" ∈ f.cols ∧ "abstract" ∈ f.cols then
    some (addCol f "is_compliant" (fun r =>
      let s := (combinedText r).toLower
      encB (containsWordAny s demoKws && containsWordAny s outKwsA)))
  else none

/-- Lines 93-95: map `is_1` to `outcome_positive` when present. -/
def deriveOutcomePositiveFromIs1 (f : Frame) : Frame :=
  if "is_1" ∈ f.cols ∧ "outcome_positive" ∉ f.cols then
    addCol f "outcome_positive" (fun r => encB (numPos (rawGet r "is_1")))
  else f

/-- Lines 97-104: coerce or derive `outcome_present`. -/
def deriveOutcomePresent (f : Frame) : Option Frame :=
  if "outcome_present" ∈ f.cols then
    some (setCol f "outcome_present" (fun cell => encB (numPos cell)))
  else if "title" ∈ f.cols ∧ "abstract" ∈ f.cols then
    some (addCol f "outcome_present" (fun r =>
      encB (containsWordAny ((combinedText r).toLower) outKwsB)))
  else none

/-- Lines 106-109: derive `outcome_sign` when absent (the combined text is
passed unlowered; `infer_outcome_sign` lowers internally). -/
def deriveOutcomeSign (f : Frame) : Option Frame :=
  if "outcome_sign" ∈ f.cols then some f
  else if "title" ∈ f.cols ∧ "abstract" ∈ f.cols then
    some (addCol f "outcome_sign" (fun r => some (infer_outcome_sign (combinedText r))))
  else none

/-- Lines 111-113: set `outcome_positive` from `outcome_sign` when still
absent; values outside the map become nullable-boolean NA. -/
def deriveOutcomePositiveFromSign (f : Frame) : Frame :=
  if "outcome_positive" ∉ f.cols ∧ "outcome_sign" ∈ f.cols then
    addCol f "outcome_positive" (fun r =>
      match rawGet r "outcome_sign" with
      | some "positive" => some "True"
      | some "negative" => some "False"
      | _ => none)
  else f

/-- `scripts/ingest_csv.py` lines 77-113: the full derivation block; `none`
models a raised exception (missing `title`/`abstract` source columns). -/
def deriveFrame (f : Frame) : Option Frame :=
  match deriveStudyType f with
  | none => none
  | some f1 =>
    match deriveIsCompliant f1 with
    | none => none
    | some f2 =>
      match deriveOutcomePresent (deriveOutcomePositiveFromIs1 f2) with
      | none => none
      | some f4 =>
        match deriveOutcomeSign f4 with
        | none => none
        | some f5 => some (deriveOutcomePositiveFromSign f5)

/-- Result of the pmid-cleaning step: the kept raw rows and the count of
dropped rows. -/
structure Cleaned where
  rows : List RawRow
  dropped : Nat
deriving DecidableEq, Repr

/-- `scripts/ingest_csv.py` lines 115-123: require a `pmid` column, coerce
it numerically, drop rows whose pmid does not parse, and count the drops.
The kept rows keep their raw cells: the later per-column coercion
recomputes the same numeric value, and `astype("Int64")` raises on a
non-integral parsed pmid, modelled as an error. -/
def cleanPmid (f : Frame) : Except String Cleaned :=
  if "pmid" ∉ f.cols then .error "CSV is missing pmid column."
  else
    let kept := f.rows.filter (fun r => (pyToNumeric (rawGet r "pmid")).isSome)
    if kept.all (fun r => ((pyToNumeric (rawGet r "pmid")).getD 0).den = 1) then
      .ok ⟨kept, f.rows.length - kept.length⟩
    else .error "cannot safely cast pmid to Int64"

/-- The introspected destination schema: ordered `(column_name, data_type)`
pairs as returned by the catalog query in lines 131-137. -/
abbrev Schema := List (String × String)

/-- The destination `records` table: introspected schema plus rows. -/
structure Table where
  schema : Schema
  rows : List Row
deriving DecidableEq, Repr

/-- `scripts/ingest_csv.py` lines 50-56: the columns `ensure_min_columns`
adds when missing, with their declared types. -/
def minColumns : Schema :=
  [("study_type", "text"), ("is_compliant", "boolean"), ("outcome_present", "boolean"),
   ("outcome_positive", "boolean"), ("outcome_sign", "text")]

/-- `scripts/ingest_csv.py` lines 48-62: `ensure_min_columns` as `ALTER
TABLE records ADD COLUMN IF NOT EXISTS ...`; pre-existing rows read the new
columns as NULL. -/
def ensureMinColumns (t : Table) : Table :=
  let toAdd := minColumns.filter (fun p => p.1 ∉ t.schema.map Prod.fst)
  { schema := t.schema ++ toAdd,
    rows := t.rows.map (fun r => r ++ toAdd.map (fun p => (p.1, Val.null))) }

/-- Line 142: `db_types = {r[0]: r[1].lower() for r in rows}` then
`db_types.get(c, "text")`: a dict comprehension keeps the last binding. -/
def dbTypeOf (schema : Schema) (c : String) : String :=
  match schema.reverse.find? (fun p => p.1 == c) with
  | some p => p.2
  | none => "text"

/-- `scripts/ingest_csv.py` lines 144-149: the column overlap in DB order,
with the two fail-fast configuration checks. -/
def reconcileCols (dbCols dfCols : List String) : Except String (List String) :=
  let cols := dbCols.filter (fun c => c ∈ dfCols)
  if "pmid" ∉ cols then .error "pmid must exist in CSV and DB."
  else if cols = [] then .error "No overlapping columns between CSV and records table."
  else .ok cols

/-- Line 154: integer destination types. -/
def intTypes : List String := ["smallint", "integer", "bigint"]

/-- Line 156: real destination types. -/
def realTypes : List String := ["double precision", "real", "numeric", "decimal"]

/-- `scripts/ingest_csv.py` lines 151-161 together with the staging COPY of
lines 170-181: coerce one raw cell to its destination type.  Integer types
go through `pd.to_numeric(...).astype("Int64")`, whose cast raises on a
non-integral value (the error case); real types through `pd.to_numeric`;
boolean through `to_bool`; anything else is stringified, and the COPY option
`NULL ''` turns empty cells into true NULLs. -/
def coerceCell (ty : String) (cell : Option String) : Except String Val :=
  if ty ∈ intTypes then
    match pyToNumeric cell with
    | none => .ok Val.null
    | some q => if q.den = 1 then .ok (Val.i q.num) else .error "cannot safely cast to Int64"
  else if ty ∈ realTypes then
    .ok (match pyToNumeric cell with
         | none => Val.null
         | some q => Val.r q)
  else if ty = "boolean" then
    .ok (match to_bool cell with
         | none => Val.null
         | some bv => Val.b bv)
  else
    .ok (match cell with
         | none => Val.null
         | some str => if str = "" then Val.null else Val.s str)

/-- One staged row: `df[cols]` restricted to the reconciled columns, each
cell coerced to its destination type. -/
def stageRow (schema : Schema) (cols : List String) (r : RawRow) : Except String Row :=
  cols.mapM (fun c => (coerceCell (dbTypeOf schema c) (rawGet r c)).map (fun v => (c, v)))

/-- The whole staged table. -/
def stageRowsM (schema : Schema) (cols : List String) (rows : List RawRow) : Except String (List Row) :=
  rows.mapM (stageRow schema cols)

/-- The merge key of a row: its `pmid` value. -/
def pmidOf (r : Row) : Val := rowGet r "pmid"

/-- `DO UPDATE SET c = EXCLUDED.c` for every reconciled non-key column. -/
def overwriteRow (cols : List String) (sr : Row) (r : Row) : Row :=
  r.map (fun p => if p.1 ∈ cols ∧ p.1 ≠ "pmid" then (p.1, rowGet sr p.1) else p)

/-- An inserted destination row: staged values on the reconciled columns,
NULL on the rest of the schema. -/
def newRow (schema : Schema) (cols : List String) (sr : Row) : Row :=
  schema.map (fun p => (p.1, if p.1 ∈ cols then rowGet sr p.1 else Val.null))

/-- The effect of one staged row inside the merge: conflict on `pmid`
updates, otherwise insert. -/
def applyStaged (schema : Schema) (cols : List String) (t : List Row) (sr : Row) : List Row :=
  if ∃ r ∈ t, pmidOf r = pmidOf sr then
    t.map (fun r => if pmidOf r = pmidOf sr then overwriteRow cols sr r else r)
  else t ++ [newRow schema cols sr]

/-- The staged batch is mergeable: `pmid` is a primary key, so a staged
NULL pmid violates NOT NULL and two staged rows with one pmid make the
single `INSERT ... ON CONFLICT DO UPDATE` statement affect a row twice;
either aborts the statement. -/
def stagePmidsOk (stage : List Row) : Prop :=
  (stage.map pmidOf).Nodup ∧ Val.null ∉ stage.map pmidOf

instance (stage : List Row) : Decidable (stagePmidsOk stage) := by
  unfold stagePmidsOk; infer_instance

/-- `scripts/ingest_csv.py` lines 183-193: the set-based upsert statement;
an error models the statement aborting with no effect. -/
def mergeUpsert (schema : Schema) (cols : List String) (stage : List Row) (t : List Row) :
    Except String (List Row) :=
  if stagePmidsOk stage then .ok (stage.foldl (applyStaged schema cols) t)
  else .error "ON CONFLICT cannot affect row a second time"

/-- The merge runs inside `with engine.begin()`: on failure the transaction
rolls back and the destination rows are untouched. -/
def commitMerge (schema : Schema) (cols : List String) (stage : List Row) (t : List Row) : List Row :=
  match mergeUpsert schema cols stage t with
  | .ok t2 => t2
  | .error _ => t

/-- A statement executed against the destination database. -/
inductive DestOp where
  | alterAddColumns (cs : List String)
  | introspectSchema
  | dropStage
  | createStage
  | copyStage
  | upsertMerge
deriving DecidableEq, Repr

/-- Outcome of one orchestrator run: the destination afterwards (`none` =
the table does not exist), the trace of destination statements issued, and
the abort message if the run did not finish. -/
structure RunOut where
  dest : Option Table
  ops : List DestOp
  err : Option String
deriving DecidableEq, Repr

/-- `scripts/ingest_csv.py` lines 125-195: everything from `create_engine`
on, given the derived frame and the cleaned rows.  `ensure_min_columns` is
the first destination statement: an `ALTER TABLE records` that raises when
the table is absent (so the later `Table not found` check never fires for a
missing table); then introspection, reconciliation, per-column coercion,
staging and the transactional upsert. -/
def runEngine (df1 : Frame) (cl : Cleaned) (dest : Option Table) : RunOut :=
  match dest with
  | none =>
    ⟨none, [DestOp.alterAddColumns (minColumns.map Prod.fst)],
      some "relation records does not exist"⟩
  | some t0 =>
    let t1 := ensureMinColumns t0
    let ops1 := [DestOp.alterAddColumns (minColumns.map Prod.fst), DestOp.introspectSchema]
    if t1.schema = [] then ⟨some t1, ops1, some "Table records not found"⟩
    else
      match reconcileCols (t1.schema.map Prod.fst) df1.cols with
      | .error m => ⟨some t1, ops1, some m⟩
      | .ok cols =>
        match stageRowsM t1.schema cols cl.rows with
        | .error m => ⟨some t1, ops1, some m⟩
        | .ok stage =>
          let ops2 := ops1 ++ [DestOp.dropStage, DestOp.createStage, DestOp.copyStage, DestOp.upsertMerge]
          match mergeUpsert t1.schema cols stage t1.rows with
          | .error m => ⟨some { t1 with rows := t1.rows }, ops2, some m⟩
          | .ok rows2 => ⟨some { t1 with rows := rows2 }, ops2, none⟩

/-- `scripts/ingest_csv.py` lines 64-195: `main`, for one run.  The input
is the parsed CSV (`none` = missing or unparsable file).  Control flow
follows the source order: read, derive and clean pmid before any engine
use, then the engine phase. -/
def runIngest (csv : Option Frame) (dest : Option Table) : RunOut :=
  match csv with
  | none => ⟨dest, [], some "cannot read input CSV"⟩
  | some df0 =>
    match deriveFrame df0 with
    | none => ⟨dest, [], some "derivation raised"⟩
    | some df1 =>
      match cleanPmid df1 with
      | .error m => ⟨dest, [], some m⟩
      | .ok cl => runEngine df1 cl dest

/-- The destination state an ingest run leaves behind. -/
def ingestState (csv : Option Frame) (dest : Option Table) : Option Table :=
  (runIngest csv dest).dest

/-- A row of the `records` table as the append-style loader
`app/scripts/ingest_csv.py` sees it. -/
structure AppRow where
  pmid : Option Int
  title : Option String
  abstract : Option String
  year : Option Int
  decade : Option Int
  fts : Option String
deriving DecidableEq, Repr

/-- `to_tsvector('english', coalesce(title,'') || ' ' || coalesce(abstract,''))`,
modelled by the text it is computed from: the search vector is an opaque
pure function of this string, so consistency of the vector with the row's
text is equality of the modelled sources. -/
def toTsvector (title abstract : Option String) : String :=
  title.getD "" ++ " " ++ abstract.getD ""

/-- `app/scripts/ingest_csv.py` line 11: `decade = to_numeric(year) // 10 * 10`
(Python floor division). -/
def decadeOfYear (year : Option Int) : Option Int :=
  year.map (fun y => Int.fdiv y 10 * 10)

/-- `app/scripts/ingest_csv.py` lines 9-16: `upsert_postgres`.  When the
frame has no `decade` column it is derived from `year`; `to_sql(...,
if_exists="append")` plain-inserts every row inside one transaction, so a
`pmid` primary-key collision (with existing rows or within the batch) or a
NULL pmid aborts and rolls the whole transaction back; on success the UPDATE
statement recomputes `fts` for every row of the table. -/
def upsert_postgres (hasDecadeCol : Bool) (df : List AppRow) (t : List AppRow) :
    Except String (List AppRow) :=
  let rows := if hasDecadeCol then df else df.map (fun r => { r with decade := decadeOfYear r.year })
  let combined := t ++ rows
  if (combined.map AppRow.pmid).Nodup ∧ none ∉ combined.map AppRow.pmid then
    .ok (combined.map (fun r => { r with fts := some (toTsvector r.title r.abstract) }))
  else .error "duplicate key value violates unique constraint records_pkey"

/-- `scripts/convert_csv_bools.py` lines 15-20: the per-cell rewrite. -/
def convertCell (v : String) : String :=
  if v = "True" then "1" else if v = "False" then "0" else v

/-- `scripts/convert_csv_bools.py` as a whole, over a one-file store whose
content is a header row plus data rows.  `samePath` says whether the input
and output paths alias (in the source both are `data/records.csv`): opening
the output in write mode truncates the store before the `DictReader` pulls
its header, so an aliased run reads an empty file — `fieldnames` is `None`,
`writeheader` raises `TypeError`, and the store is left truncated.  The
result is the final store content and the raised error, if any. -/
def runConvertOn (samePath : Bool) (content : List (List String)) :
    List (List String) × Option String :=
  let visible := if samePath then [] else content
  match visible with
  | [] => ([], some "TypeError: fieldnames is None")
  | header :: body => (header :: body.map (fun r => r.map convertCell), none)

/-- The script as shipped: `input_file = output_file = data/records.csv`. -/
def runConvertScript (content : List (List String)) : List (List String) × Option String :=
  runConvertOn true content

/-- Modelled from the spec: the Field Deriver's domain/category label
(§4.2) is not implemented under `src/` — only its consumers exist
(`app/search.py`, `app/db.py` select and facet on `domain`).  Ordered
boolean indicator columns, each mapping to one label, first true wins; the
indicators named by the repository are `is_tms` (claim scenario) and
`is_pharma` (destination schema). -/
def domainIndicators : List (String × String) := [("is_tms", "tms"), ("is_pharma", "pharma")]

/-- Modelled from the spec: first boolean indicator column that coerces
true wins; when none fires, the spec falls back to a keyword search over
free-text descriptor columns against a keyword-to-label table it does not
fix, modelled by the `kw` argument. -/
def deriveDomain (kw : RawRow → Option String) (r : RawRow) : Option String :=
  match domainIndicators.find? (fun p => to_bool (rawGet r p.1) == some true) with
  | some p => some p.2
  | none => kw r

/-- Modelled from the spec: year source columns in fixed priority order,
most authoritative first (`pub_year_final` is the repository's
final/authoritative export column; `year` the plain one). -/
def yearSources : List String := ["pub_year_final", "year"]

/-- Modelled from the spec: the first priority column present in the frame
with at least one numeric-parseable value wins for the whole batch. -/
def chooseYearCol (f : Frame) : Option String :=
  yearSources.find? (fun c => f.cols.contains c && f.rows.any (fun r => (pyToNumeric (rawGet r c)).isSome))

/-- Modelled from the spec: the per-row year from the batch-chosen source
column, truncated to an integer. -/
def deriveYear (f : Frame) (r : RawRow) : Option Int :=
  (chooseYearCol f).bind (fun c => (pyToNumeric (rawGet r c)).map ratTrunc)

/-- A staged row is fully applied in a table: some row carries its key, and
every row carrying its key is a fixed point of the overwrite. -/
def Settled (cols : List String) (sr : Row) (t : List Row) : Prop :=
  (∃ r ∈ t, pmidOf r = pmidOf sr) ∧
    ∀ r ∈ t, pmidOf r = pmidOf sr → overwriteRow cols sr r = r

/-- `r` carries the staged values of `sr` on every reconciled column
(including staged NULLs). -/
def agreesOn (cols : List String) (sr r : Row) : Prop :=
  ∀ c ∈ cols, rowGet r c = rowGet sr c

/-- The column names the derivation block of lines 77-113 can append. -/
def derivedNames : List String :=
  ["study_type", "is_compliant", "outcome_positive", "outcome_present", "outcome_sign"]

/-- Concrete schema for the upsert scenario of §8. -/
def upsertSchemaC : Schema := [("pmid", "bigint"), ("title", "text"), ("abstract", "text")]

/-- Concrete reconciled columns for the upsert scenario. -/
def upsertColsC : List String := ["pmid", "title", "abstract"]

/-- First staged row of the scenario: `pmid=100, title="A"`. -/
def stagedRowA : Row := [("pmid", Val.i 100), ("title", Val.s "A"), ("abstract", Val.s "X")]

/-- Second staged row of the scenario: `pmid=100, title="B"`, with a staged
NULL abstract to exhibit the full overwrite. -/
def stagedRowB : Row := [("pmid", Val.i 100), ("title", Val.s "B"), ("abstract", Val.null)]

/-- A batch with one row whose pmid cell is empty but whose secondary
identifier (`doi`) is populated. -/
def frameC7 : Frame :=
  { cols := ["pmid", "doi"],
    rows := [[("pmid", none), ("doi", some "10.1000/x1")]] }

/-- Whether a raw row lacks both the identity and the secondary
identifier, the condition the claimed drop counter counts. -/
def bothIdsNull (r : RawRow) : Bool :=
  (pyToNumeric (rawGet r "pmid")).isNone && (rawGet r "doi").isNone

/-- A well-formed input batch that passes parsing, derivation and pmid
cleaning. -/
def frameOkC : Frame :=
  { cols := ["pmid", "title", "abstract"],
    rows := [[("pmid", some "1"), ("title", some "T"), ("abstract", some "A")]] }

/-- A concrete destination table for witnesses. -/
def tblW : Table :=
  { schema := [("pmid", "bigint"), ("title", "text"), ("abstract", "text")],
    rows := [] }

/-- The §8 scenario input: `[pmid, title, abstract, is_tms=true,
pub_year_final=2011]`. -/
def frameC9 : Frame :=
  { cols := ["pmid", "title", "abstract", "is_tms", "pub_year_final"],
    rows := [[("pmid", some "100"), ("title", some "T"), ("abstract", some "A"),
              ("is_tms", some "True"), ("pub_year_final", some "2011")]] }

/-- The single row of the §8 scenario input. -/
def rowC9 : RawRow :=
  [("pmid", some "100"), ("title", some "T"), ("abstract", some "A"),
   ("is_tms", some "True"), ("pub_year_final", some "2011")]

/-- A concrete CSV store content for the boolean-conversion script. -/
def contentC10 : List (List String) :=
  [["a", "b"], ["True", "x"], ["False", "True"]]

/-- An input batch lacking the identity column. -/
def frameNoPmid : Frame := { cols := ["title", "abstract"], rows := [] }

/-- A concrete row for the append-style loader. -/
def appRowW : AppRow :=
  { pmid := some 100, title := some "T", abstract := some "A",
    year := some 2011, decade := none, fts := none }

/-- The destination row the append-style loader produces from `appRowW`. -/
def appRowWOut : AppRow :=
  { pmid := some 100, title := some "T", abstract := some "A",
    year := some 2011, decade := some 2010, fts := some "T A" }


theorem rowGet_nil (c : String) : rowGet [] c = Val.null := rfl

theorem rowGet_cons (c0 : String) (v : Val) (t : Row) (c : String) :
    rowGet ((c0, v) :: t) c = if c0 = c then v else rowGet t c := by
  by_cases h : c0 = c
  · simp [rowGet, List.find?, h]
  · have hb : (c0 == c) = false := by simpa using h
    simp [rowGet, List.find?, hb, h]

theorem overwriteRow_cons (cols : List String) (sr : Row) (c0 : String) (v : Val) (t : Row) :
    overwriteRow cols sr ((c0, v) :: t) =
      (if c0 ∈ cols ∧ c0 ≠ "pmid" then (c0, rowGet sr c0) else (c0, v)) :: overwriteRow cols sr t := by
  simp only [overwriteRow, List.map_cons]

theorem map_fst_overwriteRow (cols : List String) (sr r : Row) :
    (overwriteRow cols sr r).map Prod.fst = r.map Prod.fst := by
  unfold overwriteRow
  rw [List.map_map]
  apply List.map_congr_left
  intro p _
  by_cases h : p.1 ∈ cols ∧ p.1 ≠ "pmid" <;> simp [h]

theorem rowGet_overwriteRow (cols : List String) (sr r : Row) (c : String) :
    rowGet (overwriteRow cols sr r) c =
      if c ∈ r.map Prod.fst ∧ c ∈ cols ∧ c ≠ "pmid" then rowGet sr c else rowGet r c := by
  induction r with
  | nil => simp [overwriteRow, rowGet_nil]
  | cons p t ih =>
    obtain ⟨c0, v⟩ := p
    rw [overwriteRow_cons]
    by_cases hc : c0 = c
    · subst hc
      by_cases h0 : c0 ∈ cols ∧ c0 ≠ "pmid"
      · rw [if_pos h0, rowGet_cons, if_pos rfl, rowGet_cons, if_pos rfl]
        have : c0 ∈ List.map Prod.fst ((c0, v) :: t) ∧ c0 ∈ cols ∧ c0 ≠ "pmid" := by
          exact ⟨by simp, h0.1, h0.2⟩
        rw [if_pos this]
      · rw [if_neg h0, rowGet_cons, if_pos rfl, rowGet_cons, if_pos rfl]
        have : ¬(c0 ∈ List.map Prod.fst ((c0, v) :: t) ∧ c0 ∈ cols ∧ c0 ≠ "pmid") := by
          rintro ⟨-, h2, h3⟩
          exact h0 ⟨h2, h3⟩
        rw [if_neg this]
    · have hne : ¬c = c0 := fun h1 => hc h1.symm
      by_cases h0 : c0 ∈ cols ∧ c0 ≠ "pmid"
      · rw [if_pos h0, rowGet_cons, if_neg hc, rowGet_cons, if_neg hc, ih]
        simp only [List.map_cons, List.mem_cons, or_iff_right hne]
      · rw [if_neg h0, rowGet_cons, if_neg hc, rowGet_cons, if_neg hc, ih]
        simp only [List.map_cons, List.mem_cons, or_iff_right hne]

theorem pmidOf_overwriteRow (cols : List String) (sr r : Row) :
    pmidOf (overwriteRow cols sr r) = pmidOf r := by
  unfold pmidOf
  rw [rowGet_overwriteRow]
  simp

theorem overwriteRow_overwriteRow (cols : List String) (sr r : Row) :
    overwriteRow cols sr (overwriteRow cols sr r) = overwriteRow cols sr r := by
  unfold overwriteRow
  rw [List.map_map]
  apply List.map_congr_left
  intro p _
  by_cases h : p.1 ∈ cols ∧ p.1 ≠ "pmid" <;> simp [h]

theorem map_fst_newRow (schema : Schema) (cols : List String) (sr : Row) :
    (newRow schema cols sr).map Prod.fst = schema.map Prod.fst := by
  unfold newRow
  rw [List.map_map]
  rfl

theorem rowGet_newRow (schema : Schema) (cols : List String) (sr : Row) (c : String) :
    rowGet (newRow schema cols sr) c =
      if c ∈ schema.map Prod.fst then (if c ∈ cols then rowGet sr c else Val.null) else Val.null := by
  induction schema with
  | nil => simp [newRow, rowGet_nil]
  | cons p t ih =>
    obtain ⟨c0, ty⟩ := p
    simp only [newRow, List.map_cons] at *
    by_cases hc : c0 = c
    · subst hc
      rw [rowGet_cons, if_pos rfl]
      simp
    · have hne : ¬c = c0 := fun h1 => hc h1.symm
      rw [rowGet_cons, if_neg hc, ih]
      simp only [List.mem_cons, or_iff_right hne]

theorem pmidOf_newRow (schema : Schema) (cols : List String) (sr : Row)
    (hs : "pmid" ∈ schema.map Prod.fst) (hc : "pmid" ∈ cols) :
    pmidOf (newRow schema cols sr) = pmidOf sr := by
  unfold pmidOf
  rw [rowGet_newRow, if_pos hs, if_pos hc]

theorem overwriteRow_newRow (schema : Schema) (cols : List String) (sr : Row) :
    overwriteRow cols sr (newRow schema cols sr) = newRow schema cols sr := by
  unfold overwriteRow newRow
  rw [List.map_map]
  apply List.map_congr_left
  intro p _
  by_cases h : p.1 ∈ cols ∧ p.1 ≠ "pmid"
  · simp [h, h.1]
  · simp [h]

theorem applyStaged_of_settled (schema : Schema) (cols : List String) (sr : Row) (t : List Row)
    (h : Settled cols sr t) : applyStaged schema cols t sr = t := by
  unfold applyStaged
  rw [if_pos h.1]
  have hid : ∀ r ∈ t, (if pmidOf r = pmidOf sr then overwriteRow cols sr r else r) = r := by
    intro r hr
    by_cases hm : pmidOf r = pmidOf sr
    · rw [if_pos hm, h.2 r hr hm]
    · rw [if_neg hm]
  rw [List.map_congr_left hid]
  exact List.map_id' t

theorem settled_applyStaged (schema : Schema) (cols : List String) (sr : Row) (t : List Row)
    (hc : "pmid" ∈ cols) (hs : "pmid" ∈ schema.map Prod.fst) :
    Settled cols sr (applyStaged schema cols t sr) := by
  unfold applyStaged
  by_cases hex : ∃ r ∈ t, pmidOf r = pmidOf sr
  · rw [if_pos hex]
    obtain ⟨r0, hr0, hm0⟩ := hex
    constructor
    · refine ⟨if pmidOf r0 = pmidOf sr then overwriteRow cols sr r0 else r0,
        List.mem_map_of_mem _ hr0, ?_⟩
      rw [if_pos hm0, pmidOf_overwriteRow, hm0]
    · intro x hx hxm
      obtain ⟨r, hr, rfl⟩ := List.mem_map.mp hx
      by_cases hm : pmidOf r = pmidOf sr
      · rw [if_pos hm]
        exact overwriteRow_overwriteRow cols sr r
      · rw [if_neg hm] at hxm
        exact absurd hxm hm
  · rw [if_neg hex]
    constructor
    · exact ⟨newRow schema cols sr, by simp, pmidOf_newRow schema cols sr hs hc⟩
    · intro x hx hxm
      rcases List.mem_append.mp hx with h1 | h2
      · exact absurd ⟨x, h1, hxm⟩ hex
      · have : x = newRow schema cols sr := by simpa using h2
        subst this
        exact overwriteRow_newRow schema cols sr

theorem settled_applyStaged_ne (schema : Schema) (cols : List String) (sr sr2 : Row) (t : List Row)
    (hc : "pmid" ∈ cols) (hs : "pmid" ∈ schema.map Prod.fst)
    (h : Settled cols sr t) (hne : pmidOf sr2 ≠ pmidOf sr) :
    Settled cols sr (applyStaged schema cols t sr2) := by
  unfold applyStaged
  by_cases hex : ∃ r ∈ t, pmidOf r = pmidOf sr2
  · rw [if_pos hex]
    constructor
    · obtain ⟨r0, hr0, hm0⟩ := h.1
      refine ⟨if pmidOf r0 = pmidOf sr2 then overwriteRow cols sr2 r0 else r0,
        List.mem_map_of_mem _ hr0, ?_⟩
      have hne0 : ¬pmidOf r0 = pmidOf sr2 := by
        rw [hm0]
        exact fun e => hne e.symm
      rw [if_neg hne0]
      exact hm0
    · intro x hx hxm
      obtain ⟨r, hr, rfl⟩ := List.mem_map.mp hx
      by_cases hm2 : pmidOf r = pmidOf sr2
      · rw [if_pos hm2, pmidOf_overwriteRow] at hxm
        exact absurd (hm2.symm.trans hxm) hne
      · rw [if_neg hm2] at hxm ⊢
        exact h.2 r hr hxm
  · rw [if_neg hex]
    constructor
    · obtain ⟨r0, hr0, hm0⟩ := h.1
      exact ⟨r0, List.mem_append_left _ hr0, hm0⟩
    · intro x hx hxm
      rcases List.mem_append.mp hx with h1 | h2
      · exact h.2 x h1 hxm
      · have : x = newRow schema cols sr2 := by simpa using h2
        subst this
        rw [pmidOf_newRow schema cols sr2 hs hc] at hxm
        exact absurd hxm hne

theorem foldl_of_settled (schema : Schema) (cols : List String) (stage : List Row) (t : List Row)
    (h : ∀ sr ∈ stage, Settled cols sr t) :
    stage.foldl (applyStaged schema cols) t = t := by
  induction stage with
  | nil => rfl
  | cons sr rest ih =>
    rw [List.foldl_cons, applyStaged_of_settled schema cols sr t (h sr (by simp))]
    exact ih (fun sr2 h2 => h sr2 (by simp [h2]))

theorem settled_foldl_ne (schema : Schema) (cols : List String) (sr : Row) (stage : List Row)
    (hc : "pmid" ∈ cols) (hs : "pmid" ∈ schema.map Prod.fst) :
    ∀ t : List Row, Settled cols sr t → (∀ sr2 ∈ stage, pmidOf sr2 ≠ pmidOf sr) →
      Settled cols sr (stage.foldl (applyStaged schema cols) t) := by
  induction stage with
  | nil => exact fun t h _ => h
  | cons sr0 rest ih =>
    intro t h hne
    rw [List.foldl_cons]
    exact ih (applyStaged schema cols t sr0)
      (settled_applyStaged_ne schema cols sr sr0 t hc hs h (hne sr0 (by simp)))
      (fun sr2 h2 => hne sr2 (by simp [h2]))

theorem settled_after_foldl (schema : Schema) (cols : List String) (stage : List Row)
    (hc : "pmid" ∈ cols) (hs : "pmid" ∈ schema.map Prod.fst) :
    ∀ t : List Row, (stage.map pmidOf).Nodup →
      ∀ sr ∈ stage, Settled cols sr (stage.foldl (applyStaged schema cols) t) := by
  induction stage with
  | nil => intro t _ sr h; exact absurd h (by simp)
  | cons sr0 rest ih =>
    intro t hnd sr hsr
    rw [List.foldl_cons]
    rw [List.map_cons, List.nodup_cons] at hnd
    rcases List.mem_cons.mp hsr with h1 | h2
    · subst h1
      refine settled_foldl_ne schema cols sr rest hc hs (applyStaged schema cols t sr) ?_ ?_
      · exact settled_applyStaged schema cols sr t hc hs
      · intro sr2 h2 he
        exact hnd.1 (he ▸ List.mem_map_of_mem pmidOf h2)
    · exact ih (applyStaged schema cols t sr0) hnd.2 sr h2

theorem foldl_applyStaged_idem (schema : Schema) (cols : List String) (stage : List Row)
    (t : List Row) (hc : "pmid" ∈ cols) (hs : "pmid" ∈ schema.map Prod.fst)
    (hnd : (stage.map pmidOf).Nodup) :
    stage.foldl (applyStaged schema cols) (stage.foldl (applyStaged schema cols) t) =
      stage.foldl (applyStaged schema cols) t :=
  foldl_of_settled schema cols stage _ (settled_after_foldl schema cols stage hc hs t hnd)

theorem map_fst_mem_applyStaged (schema : Schema) (cols : List String) (t : List Row) (sr : Row)
    (h : ∀ r ∈ t, r.map Prod.fst = schema.map Prod.fst) :
    ∀ r ∈ applyStaged schema cols t sr, r.map Prod.fst = schema.map Prod.fst := by
  unfold applyStaged
  by_cases hex : ∃ r ∈ t, pmidOf r = pmidOf sr
  · rw [if_pos hex]
    intro x hx
    obtain ⟨r, hr, rfl⟩ := List.mem_map.mp hx
    by_cases hm : pmidOf r = pmidOf sr
    · rw [if_pos hm, map_fst_overwriteRow]
      exact h r hr
    · rw [if_neg hm]
      exact h r hr
  · rw [if_neg hex]
    intro x hx
    rcases List.mem_append.mp hx with h1 | h2
    · exact h x h1
    · have : x = newRow schema cols sr := by simpa using h2
      subst this
      exact map_fst_newRow schema cols sr

theorem map_fst_mem_foldl (schema : Schema) (cols : List String) (stage : List Row) :
    ∀ t : List Row, (∀ r ∈ t, r.map Prod.fst = schema.map Prod.fst) →
      ∀ r ∈ stage.foldl (applyStaged schema cols) t, r.map Prod.fst = schema.map Prod.fst := by
  induction stage with
  | nil => exact fun t h => h
  | cons sr0 rest ih =>
    intro t h
    rw [List.foldl_cons]
    exact ih (applyStaged schema cols t sr0) (map_fst_mem_applyStaged schema cols t sr0 h)

theorem agreesOn_of_overwrite_fix (cols : List String) (sr r : Row)
    (hfix : overwriteRow cols sr r = r) (hpm : pmidOf r = pmidOf sr)
    (hnames : ∀ c ∈ cols, c ∈ r.map Prod.fst) : agreesOn cols sr r := by
  intro c hcc
  by_cases hp : c = "pmid"
  · subst hp
    exact hpm
  · conv_lhs => rw [← hfix]
    rw [rowGet_overwriteRow]
    rw [if_pos ⟨hnames c hcc, hcc, hp⟩]

theorem mergeUpsert_eq_ok (schema : Schema) (cols : List String) (stage t T : List Row)
    (h : mergeUpsert schema cols stage t = .ok T) :
    stagePmidsOk stage ∧ T = stage.foldl (applyStaged schema cols) t := by
  unfold mergeUpsert at h
  by_cases hok : stagePmidsOk stage
  · rw [if_pos hok] at h
    exact ⟨hok, (Except.ok.inj h).symm⟩
  · rw [if_neg hok] at h
    exact absurd h (by simp)

theorem mergeUpsert_eq_error (schema : Schema) (cols : List String) (stage t : List Row)
    (e : String) (h : mergeUpsert schema cols stage t = .error e) :
    ¬stagePmidsOk stage := by
  intro hok
  unfold mergeUpsert at h
  rw [if_pos hok] at h
  exact absurd h (by simp)

theorem merged_rows_agree (schema : Schema) (cols : List String) (stage t T : List Row)
    (hc : "pmid" ∈ cols) (hsub : ∀ c ∈ cols, c ∈ schema.map Prod.fst)
    (hrows : ∀ r ∈ t, r.map Prod.fst = schema.map Prod.fst)
    (hok : mergeUpsert schema cols stage t = .ok T) :
    ∀ sr ∈ stage,
      (∃ r ∈ T, pmidOf r = pmidOf sr ∧ agreesOn cols sr r) ∧
        ∀ r ∈ T, pmidOf r = pmidOf sr → agreesOn cols sr r := by
  obtain ⟨hpm, rfl⟩ := mergeUpsert_eq_ok schema cols stage t T hok
  intro sr hsr
  have hst := settled_after_foldl schema cols stage hc (hsub _ hc) t hpm.1 sr hsr
  have hagree : ∀ r ∈ stage.foldl (applyStaged schema cols) t,
      pmidOf r = pmidOf sr → agreesOn cols sr r := by
    intro r hr hm
    refine agreesOn_of_overwrite_fix cols sr r (hst.2 r hr hm) hm ?_
    intro c hcc
    rw [map_fst_mem_foldl schema cols stage t hrows r hr]
    exact hsub c hcc
  obtain ⟨r0, hr0, hm0⟩ := hst.1
  exact ⟨⟨r0, hr0, hm0, hagree r0 hr0 hm0⟩, hagree⟩

theorem minCols_mem_ensureMin (t : Table) (p : String × String) (hp : p ∈ minColumns) :
    p.1 ∈ (ensureMinColumns t).schema.map Prod.fst := by
  unfold ensureMinColumns
  simp only [List.map_append, List.mem_append]
  by_cases h : p.1 ∈ t.schema.map Prod.fst
  · exact Or.inl h
  · right
    exact List.mem_map_of_mem _ (List.mem_filter.mpr ⟨hp, by simpa using h⟩)

theorem ensureMin_of_minSub (t : Table) (h : ∀ p ∈ minColumns, p.1 ∈ t.schema.map Prod.fst) :
    ensureMinColumns t = t := by
  unfold ensureMinColumns
  have hnil : minColumns.filter (fun p => p.1 ∉ t.schema.map Prod.fst) = [] := by
    rw [List.filter_eq_nil_iff]
    intro p hp
    simpa using h p hp
  rw [hnil]
  cases t with
  | mk schema rows =>
    simp

theorem ensureMin_idem (t : Table) : ensureMinColumns (ensureMinColumns t) = ensureMinColumns t :=
  ensureMin_of_minSub _ (fun p hp => minCols_mem_ensureMin t p hp)

theorem ensureMin_schema_ne_nil (t : Table) : (ensureMinColumns t).schema ≠ [] := by
  unfold ensureMinColumns
  cases hs : t.schema with
  | nil =>
    simp only [hs]
    decide
  | cons a l =>
    simp [hs]

theorem reconcileCols_ok (dbCols dfCols : List String) (cols : List String)
    (h : reconcileCols dbCols dfCols = .ok cols) :
    cols = dbCols.filter (fun c => decide (c ∈ dfCols)) ∧ "pmid" ∈ cols := by
  unfold reconcileCols at h
  by_cases h1 : "pmid" ∉ dbCols.filter (fun c => decide (c ∈ dfCols))
  · rw [if_pos h1] at h
    exact absurd h (by simp)
  · rw [if_neg h1] at h
    by_cases h2 : dbCols.filter (fun c => decide (c ∈ dfCols)) = []
    · rw [if_pos h2] at h
      exact absurd h (by simp)
    · rw [if_neg h2] at h
      refine ⟨(Except.ok.inj h).symm, ?_⟩
      rw [← Except.ok.inj h]
      exact not_not.mp h1

theorem reconcileCols_ok_sub (dbCols dfCols : List String) (cols : List String)
    (h : reconcileCols dbCols dfCols = .ok cols) : ∀ c ∈ cols, c ∈ dbCols ∧ c ∈ dfCols := by
  intro c hcc
  rw [(reconcileCols_ok dbCols dfCols cols h).1] at hcc
  have := List.mem_filter.mp hcc
  exact ⟨this.1, by simpa using this.2⟩

theorem addCol_cols (f : Frame) (n : String) (v : RawRow → Option String) :
    (addCol f n v).cols = f.cols ++ [n] := rfl

theorem setCol_cols (f : Frame) (n : String) (v : Option String → Option String) :
    (setCol f n v).cols = f.cols := rfl

theorem deriveStudyType_cols (f g : Frame) (h : deriveStudyType f = some g) :
    ∀ c ∈ g.cols, c ∈ f.cols ∨ c = "study_type" := by
  unfold deriveStudyType at h
  by_cases h1 : "study_type" ∈ f.cols
  · rw [if_pos h1] at h
    intro c hc
    exact Or.inl ((Option.some.inj h) ▸ hc)
  · rw [if_neg h1] at h
    by_cases h2 : "title" ∈ f.cols ∧ "abstract" ∈ f.cols
    · rw [if_pos h2] at h
      intro c hc
      rw [← Option.some.inj h, addCol_cols] at hc
      rcases List.mem_append.mp hc with h3 | h3
      · exact Or.inl h3
      · exact Or.inr (by simpa using h3)
    · rw [if_neg h2] at h
      exact absurd h (by simp)

theorem deriveIsCompliant_cols (f g : Frame) (h : deriveIsCompliant f = some g) :
    ∀ c ∈ g.cols, c ∈ f.cols ∨ c = "is_compliant" := by
  unfold deriveIsCompliant at h
  by_cases h1 : "is_compliant" ∈ f.cols
  · rw [if_pos h1] at h
    intro c hc
    exact Or.inl ((Option.some.inj h) ▸ hc)
  · rw [if_neg h1] at h
    by_cases h2 : "demo_present" ∈ f.cols ∧ "outcome_present" ∈ f.cols
    · rw [if_pos h2] at h
      intro c hc
      rw [← Option.some.inj h, addCol_cols] at hc
      rcases List.mem_append.mp hc with h3 | h3
      · exact Or.inl h3
      · exact Or.inr (by simpa using h3)
    · rw [if_neg h2] at h
      by_cases h3 : "title" ∈ f.cols ∧ "abstract" ∈ f.cols
      · rw [if_pos h3] at h
        intro c hc
        rw [← Option.some.inj h, addCol_cols] at hc
        rcases List.mem_append.mp hc with h4 | h4
        · exact Or.inl h4
        · exact Or.inr (by simpa using h4)
      · rw [if_neg h3] at h
        exact absurd h (by simp)

theorem deriveOutcomePositiveFromIs1_cols (f : Frame) :
    ∀ c ∈ (deriveOutcomePositiveFromIs1 f).cols, c ∈ f.cols ∨ c = "outcome_positive" := by
  unfold deriveOutcomePositiveFromIs1
  by_cases h1 : "is_1" ∈ f.cols ∧ "outcome_positive" ∉ f.cols
  · rw [if_pos h1]
    intro c hc
    rw [addCol_cols] at hc
    rcases List.mem_append.mp hc with h3 | h3
    · exact Or.inl h3
    · exact Or.inr (by simpa using h3)
  · rw [if_neg h1]
    exact fun c hc => Or.inl hc

theorem deriveOutcomePresent_cols (f g : Frame) (h : deriveOutcomePresent f = some g) :
    ∀ c ∈ g.cols, c ∈ f.cols ∨ c = "outcome_present" := by
  unfold deriveOutcomePresent at h
  by_cases h1 : "outcome_present" ∈ f.cols
  · rw [if_pos h1] at h
    intro c hc
    rw [← Option.some.inj h, setCol_cols] at hc
    exact Or.inl hc
  · rw [if_neg h1] at h
    by_cases h2 : "title" ∈ f.cols ∧ "abstract" ∈ f.cols
    · rw [if_pos h2] at h
      intro c hc
      rw [← Option.some.inj h, addCol_cols] at hc
      rcases List.mem_append.mp hc with h3 | h3
      · exact Or.inl h3
      · exact Or.inr (by simpa using h3)
    · rw [if_neg h2] at h
      exact absurd h (by simp)

theorem deriveOutcomeSign_cols (f g : Frame) (h : deriveOutcomeSign f = some g) :
    ∀ c ∈ g.cols, c ∈ f.cols ∨ c = "outcome_sign" := by
  unfold deriveOutcomeSign at h
  by_cases h1 : "outcome_sign" ∈ f.cols
  · rw [if_pos h1] at h
    intro c hc
    exact Or.inl ((Option.some.inj h) ▸ hc)
  · rw [if_neg h1] at h
    by_cases h2 : "title" ∈ f.cols ∧ "abstract" ∈ f.cols
    · rw [if_pos h2] at h
      intro c hc
      rw [← Option.some.inj h, addCol_cols] at hc
      rcases List.mem_append.mp hc with h3 | h3
      · exact Or.inl h3
      · exact Or.inr (by simpa using h3)
    · rw [if_neg h2] at h
      exact absurd h (by simp)

theorem deriveOutcomePositiveFromSign_cols (f : Frame) :
    ∀ c ∈ (deriveOutcomePositiveFromSign f).cols, c ∈ f.cols ∨ c = "outcome_positive" := by
  unfold deriveOutcomePositiveFromSign
  by_cases h1 : "outcome_positive" ∉ f.cols ∧ "outcome_sign" ∈ f.cols
  · rw [if_pos h1]
    intro c hc
    rw [addCol_cols] at hc
    rcases List.mem_append.mp hc with h3 | h3
    · exact Or.inl h3
    · exact Or.inr (by simpa using h3)
  · rw [if_neg h1]
    exact fun c hc => Or.inl hc

theorem deriveFrame_cols (f g : Frame) (h : deriveFrame f = some g) :
    ∀ c ∈ g.cols, c ∈ f.cols ∨ c ∈ derivedNames := by
  unfold deriveFrame at h
  cases h1 : deriveStudyType f with
  | none => simp only [h1] at h; exact Option.noConfusion h
  | some f1 =>
    simp only [h1] at h
    cases h2 : deriveIsCompliant f1 with
    | none => simp only [h2] at h; exact Option.noConfusion h
    | some f2 =>
      simp only [h2] at h
      cases h4 : deriveOutcomePresent (deriveOutcomePositiveFromIs1 f2) with
      | none => simp only [h4] at h; exact Option.noConfusion h
      | some f4 =>
        simp only [h4] at h
        cases h5 : deriveOutcomeSign f4 with
        | none => simp only [h5] at h; exact Option.noConfusion h
        | some f5 =>
          simp only [h5, Option.some.injEq] at h
          subst h
          intro c hc
          rcases deriveOutcomePositiveFromSign_cols f5 c hc with h6 | h6
          · rcases deriveOutcomeSign_cols f4 f5 h5 c h6 with h7 | h7
            · rcases deriveOutcomePresent_cols (deriveOutcomePositiveFromIs1 f2) f4 h4 c h7 with h8 | h8
              · rcases deriveOutcomePositiveFromIs1_cols f2 c h8 with h9 | h9
                · rcases deriveIsCompliant_cols f1 f2 h2 c h9 with h10 | h10
                  · rcases deriveStudyType_cols f f1 h1 c h10 with h11 | h11
                    · exact Or.inl h11
                    · exact Or.inr (by simp [derivedNames, h11])
                  · exact Or.inr (by simp [derivedNames, h10])
                · exact Or.inr (by simp [derivedNames, h9])
              · exact Or.inr (by simp [derivedNames, h8])
            · exact Or.inr (by simp [derivedNames, h7])
          · exact Or.inr (by simp [derivedNames, h6])

theorem ensureMin_stable_rows (t : Table) (hst : ensureMinColumns t = t) (rows2 : List Row) :
    ensureMinColumns ⟨t.schema, rows2⟩ = ⟨t.schema, rows2⟩ := by
  apply ensureMin_of_minSub
  intro p hp
  have hmem := minCols_mem_ensureMin t p hp
  rw [hst] at hmem
  exact hmem

theorem runEngine_dest_idem_stable (df1 : Frame) (cl : Cleaned) (t : Table)
    (hst : ensureMinColumns t = t) :
    (runEngine df1 cl (runEngine df1 cl (some t)).dest).dest = (runEngine df1 cl (some t)).dest := by
  have hne : t.schema ≠ [] := by
    rw [← hst]
    exact ensureMin_schema_ne_nil t
  simp only [runEngine, hst, if_neg hne]
  cases hrec : reconcileCols (t.schema.map Prod.fst) df1.cols with
  | error m =>
    simp only [runEngine, hst, if_neg hne, hrec]
  | ok cols =>
    cases hstage : stageRowsM t.schema cols cl.rows with
    | error m =>
      simp only [runEngine, hst, if_neg hne, hrec, hstage]
    | ok stage =>
      cases hmerge : mergeUpsert t.schema cols stage t.rows with
      | error m =>
        simp only [runEngine, hst, if_neg hne, hrec, hstage, hmerge]
      | ok rows2 =>
        obtain ⟨hpm, hrows2⟩ := mergeUpsert_eq_ok t.schema cols stage t.rows rows2 hmerge
        have hc : "pmid" ∈ cols := (reconcileCols_ok _ _ _ hrec).2
        have hs : "pmid" ∈ t.schema.map Prod.fst :=
          (reconcileCols_ok_sub _ _ _ hrec "pmid" hc).1
        have hmerge2 : mergeUpsert t.schema cols stage rows2 = .ok rows2 := by
          unfold mergeUpsert
          rw [if_pos hpm, hrows2,
            foldl_applyStaged_idem t.schema cols stage t.rows hc hs hpm.1]
        have hst2 : ensureMinColumns ⟨t.schema, rows2⟩ = ⟨t.schema, rows2⟩ :=
          ensureMin_stable_rows t hst rows2
        simp only [runEngine, hst, if_neg hne, hrec, hstage, hmerge, hst2, hmerge2]

theorem runEngine_some_eq (df1 : Frame) (cl : Cleaned) (t0 : Table) :
    runEngine df1 cl (some t0) = runEngine df1 cl (some (ensureMinColumns t0)) := by
  simp only [runEngine, ensureMin_idem]

theorem runEngine_dest_idem (df1 : Frame) (cl : Cleaned) (d : Option Table) :
    (runEngine df1 cl (runEngine df1 cl d).dest).dest = (runEngine df1 cl d).dest := by
  cases d with
  | none => rfl
  | some t0 =>
    rw [runEngine_some_eq df1 cl t0]
    exact runEngine_dest_idem_stable df1 cl (ensureMinColumns t0) (ensureMin_idem t0)

/-- C1: running the ingest pipeline twice in a row with the same input file
and the same starting destination state yields a destination table
identical, row for row and column for column, to running it once:
for every input CSV and destination state,
`ingest(ingest(state, csv), csv) = ingest(state, csv)`. -/
theorem C1_ingest_idempotent (csv : Option Frame) (d : Option Table) :
    ingestState csv (ingestState csv d) = ingestState csv d := by
  unfold ingestState runIngest
  cases csv with
  | none => rfl
  | some df0 =>
    cases h1 : deriveFrame df0 with
    | none => simp only [h1]
    | some df1 =>
      simp only [h1]
      cases h2 : cleanPmid df1 with
      | error m => simp only [h2]
      | ok cl =>
        simp only [h2]
        exact runEngine_dest_idem df1 cl d

/-- C2: for every staged row whose identity already exists in the
destination, the upsert overwrites every reconciled non-identity column of
the destination row with the staged value, including staged NULLs (full
replace, not a sparse patch); for every staged row whose identity does not
exist it inserts a new row carrying the staged values; and concretely, two
runs upserting `pmid=100` with `title="A"` then `title="B"` leave exactly
one row with `pmid=100` and `title="B"` (with the staged NULL abstract
overwriting the previous value). -/
theorem C2_upsert_full_overwrite (schema : Schema) (cols : List String) (stage t T : List Row)
    (hc : "pmid" ∈ cols) (hsub : ∀ c ∈ cols, c ∈ schema.map Prod.fst)
    (hrows : ∀ r ∈ t, r.map Prod.fst = schema.map Prod.fst)
    (hok : mergeUpsert schema cols stage t = .ok T) :
    (∀ sr ∈ stage,
        (∀ r ∈ T, pmidOf r = pmidOf sr → agreesOn cols sr r) ∧
          ∃ r ∈ T, pmidOf r = pmidOf sr ∧ agreesOn cols sr r)
  ∧ commitMerge upsertSchemaC upsertColsC [stagedRowB]
      (commitMerge upsertSchemaC upsertColsC [stagedRowA] []) =
      [[("pmid", Val.i 100), ("title", Val.s "B"), ("abstract", Val.null)]] := by
  constructor
  · intro sr hsr
    have h := merged_rows_agree schema cols stage t T hc hsub hrows hok sr hsr
    exact ⟨h.2, h.1⟩
  · decide

theorem C2_witness :
    (∀ sr ∈ [stagedRowA],
        (∀ r ∈ [newRow upsertSchemaC upsertColsC stagedRowA],
            pmidOf r = pmidOf sr → agreesOn upsertColsC sr r) ∧
          ∃ r ∈ [newRow upsertSchemaC upsertColsC stagedRowA],
            pmidOf r = pmidOf sr ∧ agreesOn upsertColsC sr r)
  ∧ commitMerge upsertSchemaC upsertColsC [stagedRowB]
      (commitMerge upsertSchemaC upsertColsC [stagedRowA] []) =
      [[("pmid", Val.i 100), ("title", Val.s "B"), ("abstract", Val.null)]] :=
  C2_upsert_full_overwrite upsertSchemaC upsertColsC [stagedRowA] []
    [newRow upsertSchemaC upsertColsC stagedRowA]
    (by decide) (by decide) (by decide) (by rfl)

/-- C3: the merge of staged rows into the destination is one atomic unit:
when the merge statement fails the transaction rolls back and the
destination rows are exactly as before the run; when it succeeds every
staged row is merged (a destination row carries its key and all its staged
column values). -/
theorem C3_merge_atomic (schema : Schema) (cols : List String) (stage t : List Row)
    (hc : "pmid" ∈ cols) (hsub : ∀ c ∈ cols, c ∈ schema.map Prod.fst)
    (hrows : ∀ r ∈ t, r.map Prod.fst = schema.map Prod.fst) :
    ((∃ e, mergeUpsert schema cols stage t = .error e) → commitMerge schema cols stage t = t)
  ∧ ∀ T, mergeUpsert schema cols stage t = .ok T →
      commitMerge schema cols stage t = T ∧
        ∀ sr ∈ stage, ∃ r ∈ T, pmidOf r = pmidOf sr ∧ agreesOn cols sr r := by
  constructor
  · rintro ⟨e, he⟩
    unfold commitMerge
    rw [he]
  · intro T hT
    refine ⟨by unfold commitMerge; rw [hT], ?_⟩
    intro sr hsr
    exact (merged_rows_agree schema cols stage t T hc hsub hrows hT sr hsr).1

theorem C3_witness :
    ((∃ e, mergeUpsert upsertSchemaC upsertColsC [stagedRowA, stagedRowB] [] = .error e) →
        commitMerge upsertSchemaC upsertColsC [stagedRowA, stagedRowB] [] = [])
  ∧ ∀ T, mergeUpsert upsertSchemaC upsertColsC [stagedRowA, stagedRowB] [] = .ok T →
      commitMerge upsertSchemaC upsertColsC [stagedRowA, stagedRowB] [] = T ∧
        ∀ sr ∈ [stagedRowA, stagedRowB], ∃ r ∈ T, pmidOf r = pmidOf sr ∧ agreesOn upsertColsC sr r :=
  C3_merge_atomic upsertSchemaC upsertColsC [stagedRowA, stagedRowB] []
    (by decide) (by decide) (by decide)

/-- C4 counterexample: the truthy membership test is not case-insensitive.
`YES` lowercases to `yes`, which is in the truthy set, yet `to_bool`
returns null for it rather than true. -/
theorem C4_counterexample :
    "YES".toList.map Char.toLower = "yes".toList ∧ "yes" ∈ BOOL_TRUE ∧
      to_bool (some "YES") = none := by
  refine ⟨by decide, by decide, by decide⟩

/-- C4 amended: boolean coercion is a case-sensitive membership test
against the literal truthy set {1, true, t, y, yes, on, True, TRUE} and
falsy set {0, false, f, n, no, off, False, FALSE}; numeric-looking tokens
such as `1.0` resolve via the numeric-then-boolean fallback; and any other
stripped input — including the empty string and mixed-case variants such as
`YES` — yields null, never false and never an exception. -/
theorem C4_to_bool_amended :
    (∀ s ∈ BOOL_TRUE, to_bool (some s) = some true)
  ∧ (∀ s ∈ BOOL_FALSE, to_bool (some s) = some false)
  ∧ to_bool (some "1.0") = some true
  ∧ to_bool (some "0.0") = some false
  ∧ to_bool none = none
  ∧ to_bool (some "") = none
  ∧ (∀ s : String, pyStrip s ∉ BOOL_TRUE → pyStrip s ∉ BOOL_FALSE →
      pyIntOfFloat (pyStrip s) = none → to_bool (some s) = none) := by
  refine ⟨by decide, by decide, by decide, by decide, rfl, by decide, ?_⟩
  intro s h1 h2 h3
  simp only [to_bool]
  by_cases he : pyStrip s = ""
  · rw [if_pos he]
  · rw [if_neg he, if_neg h1, if_neg h2, h3]

theorem C4_witness : to_bool (some "maybe") = none :=
  C4_to_bool_amended.2.2.2.2.2.2 "maybe" (by decide) (by decide) (by decide)

/-- C5: after every append-loader run that commits, the search-vector field
of every destination row equals the vector derived from that row's current
title and abstract — recomputed, never stale. -/
theorem fts_of_ok (P : Prop) [Decidable P] (combined res : List AppRow) (e : String)
    (h : (if P then
            Except.ok (combined.map
              (fun r => { r with fts := some (toTsvector r.title r.abstract) }))
          else (Except.error e : Except String (List AppRow))) = .ok res) :
    ∀ r ∈ res, r.fts = some (toTsvector r.title r.abstract) := by
  split at h
  · intro r hr
    rw [← Except.ok.inj h] at hr
    obtain ⟨r0, hr0, rfl⟩ := List.mem_map.mp hr
    rfl
  · exact absurd h (by simp)

theorem C5_fts_recomputed (hasDecadeCol : Bool) (df t res : List AppRow)
    (h : upsert_postgres hasDecadeCol df t = .ok res) :
    ∀ r ∈ res, r.fts = some (toTsvector r.title r.abstract) := by
  unfold upsert_postgres at h
  cases hasDecadeCol with
  | false => exact fts_of_ok _ _ _ _ h
  | true => exact fts_of_ok _ _ _ _ h

theorem C5_witness : appRowWOut.fts = some (toTsvector appRowWOut.title appRowWOut.abstract) :=
  C5_fts_recomputed false [appRowW] [] [appRowWOut] (by rfl) appRowWOut (by simp)

/-- C6: schema reconciliation computes the ordered intersection of the
destination columns (in destination-declared order) with the input
columns; it fails with a configuration error exactly when `pmid` is
missing from the intersection or the intersection is empty; and every
successful column plan contains only columns present on both sides, so
extra input columns are silently dropped rather than causing an error. -/
theorem C6_reconcile (dbCols dfCols : List String) :
    (∀ cols, reconcileCols dbCols dfCols = .ok cols →
        cols = dbCols.filter (fun c => decide (c ∈ dfCols)) ∧
          ∀ c ∈ cols, c ∈ dbCols ∧ c ∈ dfCols)
  ∧ ((∃ e, reconcileCols dbCols dfCols = .error e) ↔
      ("pmid" ∉ dbCols.filter (fun c => decide (c ∈ dfCols)) ∨
        dbCols.filter (fun c => decide (c ∈ dfCols)) = [])) := by
  constructor
  · intro cols h
    exact ⟨(reconcileCols_ok dbCols dfCols cols h).1, reconcileCols_ok_sub dbCols dfCols cols h⟩
  · constructor
    · rintro ⟨e, he⟩
      unfold reconcileCols at he
      by_cases h1 : "pmid" ∉ dbCols.filter (fun c => decide (c ∈ dfCols))
      · exact Or.inl h1
      · rw [if_neg h1] at he
        by_cases h2 : dbCols.filter (fun c => decide (c ∈ dfCols)) = []
        · exact Or.inr h2
        · rw [if_neg h2] at he
          exact absurd he (by simp)
    · intro h
      unfold reconcileCols
      by_cases h1 : "pmid" ∉ dbCols.filter (fun c => decide (c ∈ dfCols))
      · rw [if_pos h1]
        exact ⟨_, rfl⟩
      · rcases h with hA | hB
        · exact absurd hA h1
        · rw [if_neg h1, if_pos hB]
          exact ⟨_, rfl⟩

theorem C6_witness :
    ["pmid"] = (["pmid", "title"].filter (fun c => decide (c ∈ ["pmid", "extra"]))) ∧
      ∀ c ∈ (["pmid"] : List String), c ∈ ["pmid", "title"] ∧ c ∈ ["pmid", "extra"] :=
  (C6_reconcile ["pmid", "title"] ["pmid", "extra"]).1 ["pmid"] (by rfl)

/-- C7 counterexample: a row whose pmid is null but whose secondary
identifier (doi) is populated is dropped and counted: the dropped counter
reads 1 while the number of rows with both identifiers null is 0 — the
counter does not equal the count of both-null rows. -/
theorem C7_counterexample :
    cleanPmid frameC7 = .ok ⟨[], 1⟩ ∧
      (frameC7.rows.filter (fun r => bothIdsNull r)).length = 0 :=
  ⟨rfl, rfl⟩

theorem length_filter_split (p : RawRow → Bool) (l : List RawRow) :
    (l.filter p).length + (l.filter (fun a => !p a)).length = l.length := by
  induction l with
  | nil => rfl
  | cons a t ih =>
    cases h : p a with
    | true =>
      simp [List.filter_cons, h]
      omega
    | false =>
      simp [List.filter_cons, h]
      omega

/-- C7 amended: the pmid-cleaning step keeps exactly the rows whose pmid
parses numerically, and the dropped counter counts exactly the rows whose
pmid is missing or unparsable — irrespective of the secondary identifier;
in particular every row with both identifiers null is excluded from the
kept set. -/
theorem C7_dropped_counter (f : Frame) (cl : Cleaned) (h : cleanPmid f = .ok cl) :
    cl.rows = f.rows.filter (fun r => (pyToNumeric (rawGet r "pmid")).isSome)
  ∧ cl.dropped = (f.rows.filter (fun r => (pyToNumeric (rawGet r "pmid")).isNone)).length
  ∧ ∀ r ∈ f.rows, bothIdsNull r = true → r ∉ cl.rows := by
  unfold cleanPmid at h
  by_cases h1 : "pmid" ∉ f.cols
  · rw [if_pos h1] at h
    exact absurd h (by simp)
  · rw [if_neg h1] at h
    by_cases h2 : (f.rows.filter (fun r => (pyToNumeric (rawGet r "pmid")).isSome)).all
        (fun r => ((pyToNumeric (rawGet r "pmid")).getD 0).den = 1) = true
    · rw [if_pos h2] at h
      have hcl := Except.ok.inj h
      subst hcl
      refine ⟨rfl, ?_, ?_⟩
      · have hsplit := length_filter_split (fun r => (pyToNumeric (rawGet r "pmid")).isSome) f.rows
        have hcongr : f.rows.filter (fun r => !(pyToNumeric (rawGet r "pmid")).isSome) =
            f.rows.filter (fun r => (pyToNumeric (rawGet r "pmid")).isNone) := by
          apply List.filter_congr
          intro r _
          cases pyToNumeric (rawGet r "pmid") <;> rfl
        rw [hcongr] at hsplit
        simp only []
        omega
      · intro r hr hb hmem
        have hsome := (List.mem_filter.mp hmem).2
        have hnone : (pyToNumeric (rawGet r "pmid")).isNone = true := by
          unfold bothIdsNull at hb
          rw [Bool.and_eq_true] at hb
          exact hb.1
        cases hval : pyToNumeric (rawGet r "pmid") with
        | none => rw [hval] at hsome; exact Bool.noConfusion hsome
        | some q => rw [hval] at hnone; exact Bool.noConfusion hnone
    · rw [if_neg h2] at h
      exact absurd h (by simp)

theorem C7_witness :
    (Cleaned.mk frameOkC.rows 0).rows =
        frameOkC.rows.filter (fun r => (pyToNumeric (rawGet r "pmid")).isSome)
  ∧ (Cleaned.mk frameOkC.rows 0).dropped =
        (frameOkC.rows.filter (fun r => (pyToNumeric (rawGet r "pmid")).isNone)).length
  ∧ ∀ r ∈ frameOkC.rows, bothIdsNull r = true → r ∉ (Cleaned.mk frameOkC.rows 0).rows :=
  C7_dropped_counter frameOkC (Cleaned.mk frameOkC.rows 0) (by rfl)

/-- C8 counterexample: with the destination table absent — one of the
claimed configuration errors — a valid input still makes the orchestrator
issue a destination statement, the schema-ensure ALTER, before aborting;
so the run does not abort before all destination I/O. -/
theorem C8_counterexample :
    (runIngest (some frameOkC) none).err ≠ none ∧
      (runIngest (some frameOkC) none).ops =
        [DestOp.alterAddColumns (minColumns.map Prod.fst)] :=
  ⟨by decide, by decide⟩

/-- C8 amended: for a missing or unparsable input file, and for an input
lacking the identity column, the run aborts before any destination
statement and leaves the destination (schema included) unchanged; when the
destination table is absent, the run aborts with the destination still
absent and the only destination statement issued is the failed
schema-ensure ALTER. -/
theorem C8_failfast (d : Option Table) (f : Frame) :
    ((runIngest none d).ops = [] ∧ (runIngest none d).dest = d ∧ (runIngest none d).err ≠ none)
  ∧ ("pmid" ∉ f.cols →
      (runIngest (some f) d).ops = [] ∧ (runIngest (some f) d).dest = d ∧
        (runIngest (some f) d).err ≠ none)
  ∧ ((runIngest (some f) none).dest = none ∧ (runIngest (some f) none).err ≠ none ∧
      ((runIngest (some f) none).ops = [] ∨
        (runIngest (some f) none).ops = [DestOp.alterAddColumns (minColumns.map Prod.fst)])) := by
  refine ⟨⟨rfl, rfl, by simp [runIngest]⟩, ?_, ?_⟩
  · intro hp
    cases hg : deriveFrame f with
    | none => simp [runIngest, hg]
    | some g =>
      have hnp : "pmid" ∉ g.cols := by
        intro hmem
        rcases deriveFrame_cols f g hg "pmid" hmem with hin | hin
        · exact hp hin
        · revert hin
          decide
      have hcl : cleanPmid g = .error "CSV is missing pmid column." := by
        unfold cleanPmid
        rw [if_pos hnp]
      simp [runIngest, hg, hcl]
  · cases hg : deriveFrame f with
    | none => simp [runIngest, hg]
    | some g =>
      cases hcl : cleanPmid g with
      | error m => simp [runIngest, hg, hcl]
      | ok cl => simp [runIngest, hg, hcl, runEngine]

theorem C8_witness :
    (runIngest (some frameNoPmid) (some tblW)).ops = [] ∧
      (runIngest (some frameNoPmid) (some tblW)).dest = some tblW ∧
      (runIngest (some frameNoPmid) (some tblW)).err ≠ none :=
  (C8_failfast (some tblW) frameNoPmid).2.1 (by decide)

/-- C9 (modelled from the spec: the domain and prioritized-year derivation
are not implemented under src/, only consumed): for the §8 scenario input
with `is_tms=true` and `pub_year_final=2011`, the derived domain label is
`tms` — the first true boolean indicator wins, whatever the keyword
fallback — the derived year is 2011, and the decade is
`floor(year/10)*10 = 2010` as the app loader computes it. -/
theorem C9_scenario (kw : RawRow → Option String) :
    deriveDomain kw rowC9 = some "tms"
  ∧ deriveYear frameC9 rowC9 = some 2011
  ∧ decadeOfYear (deriveYear frameC9 rowC9) = some 2010 :=
  ⟨rfl, rfl, rfl⟩

/-- C10 (code bug): the conversion script opens `data/records.csv` both
for reading and, write-truncating, for writing; on a store with header
`a,b` and rows `True,x` and `False,True` it truncates the store to empty
and raises `TypeError`, while a run whose two paths do not alias produces
exactly the claimed rewrite — `True`→`1`, `False`→`0`, other cells
unchanged, header and row count preserved. -/
theorem C10_truncation_bug :
    runConvertScript contentC10 = ([], some "TypeError: fieldnames is None")
  ∧ runConvertOn false contentC10 = ([["a", "b"], ["1", "x"], ["0", "1"]], none)
  ∧ (runConvertScript contentC10).1 ≠ [["a", "b"], ["1", "x"], ["0", "1"]] :=
  ⟨rfl, by decide, by decide⟩
